import Mathlib

/-!
Verification development for the weather-alert workflow engine
(`api/services/workflow`: `engine.go`, `executors.go`, registry and model types).

Modelling conventions:
* Go `any` values that flow through form data, node metadata and the shared
  variable accumulator are embedded as the inductive `GoVal`; Go maps are
  association lists (first binding wins on lookup, mirroring unique keys).
* Go `float64` is embedded as `ℚ`.  Arithmetic inside the one-decimal
  rounding helper is exact rational arithmetic; the concrete IEEE-754
  binary64 inputs relevant to the claims are given as their exact dyadic
  rational values, and on those inputs the intermediate products of the Go
  code are exactly representable, so the model agrees with the float code.
* Wall-clock fields (durations, timestamps, start/end times) and the random
  UUID are environment inputs: time fields are omitted from the embedded
  records, and the fresh run identifier is an explicit parameter of
  `Execute`.
* The `for stepNum < maxSteps` loop of `Engine.Execute` is compiled to
  structural recursion on a fuel argument with the invariant
  `fuel + stepNum = maxSteps`; the post-loop `stepNum >= maxSteps` check
  appears as the fuel-0 case and as the bound check in the `break` branch.
-/

namespace WorkflowEngine

/-- Embedded Go `any` value (the dynamic values stored in form data,
node metadata and the variables accumulator). -/
inductive GoVal where
  | vString (s : String)
  | vFloat64 (q : ℚ)
  | vFloat32 (q : ℚ)
  | vInt (n : ℤ)
  | vInt64 (n : ℤ)
  | vBool (b : Bool)
  | vList (xs : List GoVal)
  | vMap (m : List (String × GoVal))
  | vNil
deriving Repr

/-- Go type assertion `v.(string)` (succeeding case). -/
def asString : GoVal → Option String
  | .vString s => some s
  | _ => none

/-- `toFloat64` from `executors.go`: converts an `any` value to `float64`,
accepting `float64`, `float32`, `int`, `int64`. -/
def toFloat64 : GoVal → Option ℚ
  | .vFloat64 q => some q
  | .vFloat32 q => some q
  | .vInt n => some (n : ℚ)
  | .vInt64 n => some (n : ℚ)
  | _ => none

/-- Go `m[k].(string)` with the zero-value default `""`
(missing key yields a nil interface, whose assertion also defaults). -/
def getStr (m : List (String × GoVal)) (k : String) : String :=
  match List.lookup k m with
  | some (.vString s) => s
  | _ => ""

/-- Go `m[k].(float64)` with the zero-value default `0`
(used by the email executor on the temperature variable). -/
def getF64 (m : List (String × GoVal)) (k : String) : ℚ :=
  match List.lookup k m with
  | some (.vFloat64 q) => q
  | _ => 0

/-- Go `m[k].([]any)` with the zero-value default `nil`. -/
def getList (m : List (String × GoVal)) (k : String) : List GoVal :=
  match List.lookup k m with
  | some (.vList xs) => xs
  | _ => []

/-- Go `m[k].(map[string]any)` with the zero-value default `nil`. -/
def getMap (m : List (String × GoVal)) (k : String) : List (String × GoVal) :=
  match List.lookup k m with
  | some (.vMap mm) => mm
  | _ => []

/-- Go map assignment `m[k] = v`: replace the existing binding or append. -/
def setKey : List (String × GoVal) → String → GoVal → List (String × GoVal)
  | [], k, v => [(k, v)]
  | (k', v') :: rest, k, v =>
      if k' == k then (k, v) :: rest else (k', v') :: setKey rest k v

/-- `strings.EqualFold` (modelled as case-insensitive comparison by
per-character lowercasing; the Go original uses Unicode simple folding,
which agrees on the ASCII city names relevant here). -/
def eqFold (a b : String) : Bool :=
  a.data.map Char.toLower == b.data.map Char.toLower

/-- `math.Round`: round half away from zero, as an integer result. -/
def goRound (q : ℚ) : ℤ :=
  if 0 ≤ q then ⌊q + 1/2⌋ else -(⌊-q + 1/2⌋)

/-- One-decimal rounding `math.Round(x*10)/10` used by `evaluateCondition`.
The multiplication and division are exact here (see header note). -/
def round1 (q : ℚ) : ℚ := (goRound (q * 10) : ℚ) / 10

/-- Round half to even, used to model the decimal rounding of `%.1f`. -/
def roundHalfEven (q : ℚ) : ℤ :=
  if q - ⌊q⌋ < 1/2 then ⌊q⌋
  else if q - ⌊q⌋ > 1/2 then ⌊q⌋ + 1
  else if ⌊q⌋ % 2 = 0 then ⌊q⌋ else ⌊q⌋ + 1

/-- `fmt.Sprintf("%.1f", q)`: one-decimal fixed-point rendering.
(The Go formatter can emit `-0.0` for tiny negatives; this model does not,
and no claim depends on that case.) -/
def fmtF1 (q : ℚ) : String :=
  let n : ℤ := roundHalfEven (q * 10)
  let m : ℕ := n.natAbs
  (if n < 0 then "-" else "") ++ toString (m / 10) ++ "." ++ toString (m % 10)

/-- One scan step of `strings.NewReplacer(...).Replace`: at each position try
the patterns in order; on a match emit the replacement and skip the pattern,
never rescanning replaced text.  Fuel bounds the recursion; every step
consumes at least one character, so `fuel = length` is enough. -/
def replaceFuel (pairs : List (String × String)) : ℕ → List Char → List Char
  | 0, cs => cs
  | _ + 1, [] => []
  | fuel + 1, c :: cs =>
      match pairs.find? (fun p => p.1.data.isPrefixOf (c :: cs)) with
      | some p => p.2.data ++ replaceFuel pairs fuel (List.drop (p.1.data.length - 1) cs)
      | none => c :: replaceFuel pairs fuel cs

/-- `strings.NewReplacer(pairs...).Replace s`. -/
def goReplace (pairs : List (String × String)) (s : String) : String :=
  ⟨replaceFuel pairs s.data.length s.data⟩

/-- Presentation-only node position (irrelevant to execution). -/
structure Position where
  x : ℚ
  y : ℚ
deriving Repr

/-- `NodeData`: display and configuration data of a node. -/
structure NodeData where
  label : String
  description : String
  metadata : List (String × GoVal)
deriving Repr

/-- `Node`: a single step in a workflow graph. -/
structure Node where
  id : String
  type : String
  position : Position
  data : NodeData
deriving Repr

/-- `Edge`: a directed connection between two nodes (presentation-only
styling fields are omitted; `sourceHandle` disambiguates condition branches). -/
structure Edge where
  id : String
  source : String
  target : String
  label : String
  type : String
  sourceHandle : String
  targetHandle : String
  animated : Bool
deriving Repr

/-- `Workflow`: a persisted workflow definition (timestamps omitted). -/
structure Workflow where
  id : String
  name : String
  nodes : List Node
  edges : List Edge
deriving Repr

/-- `ConditionInput`: operator token and numeric threshold from the caller. -/
structure ConditionInput where
  operator : String
  threshold : ℚ
deriving Repr

/-- `ExecutionState`: the shared state threaded through node executors. -/
structure ExecutionState where
  formData : List (String × GoVal)
  condition : ConditionInput
  /-- Go field `Variables` (renamed: `variables` is reserved in Lean). -/
  vars : List (String × GoVal)
deriving Repr

/-- `StepResult`: the output of one executor invocation
(duration omitted; the built-in executors never set the error field). -/
structure StepResult where
  nodeId : String
  nodeType : String
  label : String
  status : String
  output : List (String × GoVal)
deriving Repr

/-- `ExecutionStep`: one recorded step of a run
(duration and timestamp omitted as wall-clock data). -/
structure ExecutionStep where
  stepNumber : ℕ
  nodeId : String
  nodeType : String
  type : String
  label : String
  status : String
  output : List (String × GoVal)
  error : String
deriving Repr

/-- `ExecutionResults`: the final artifact of a run
(start/end time and total duration omitted as wall-clock data). -/
structure ExecutionResults where
  executionId : String
  status : String
  steps : List ExecutionStep
deriving Repr

/-- `evaluateCondition` from `executors.go`: both temperature and threshold
are rounded to one decimal place, then the operator is applied; an
unrecognized operator yields `false`. -/
def evaluateCondition (temperature : ℚ) (operator : String) (threshold : ℚ) : Bool :=
  let t := round1 temperature
  let th := round1 threshold
  if operator == "greater_than" then t > th
  else if operator == "less_than" then t < th
  else if operator == "equals" then t == th
  else if operator == "greater_than_or_equal" then t ≥ th
  else if operator == "less_than_or_equal" then t ≤ th
  else false

/-- `operatorSymbol` from `executors.go`. -/
def operatorSymbol (op : String) : String :=
  if op == "greater_than" then ">"
  else if op == "less_than" then "<"
  else if op == "equals" then "="
  else if op == "greater_than_or_equal" then ">="
  else if op == "less_than_or_equal" then "<="
  else "?"

/-- `operatorLabel` from `executors.go`. -/
def operatorLabel (op : String) : String :=
  if op == "greater_than" then "greater than"
  else if op == "less_than" then "less than"
  else if op == "equals" then "equal to"
  else if op == "greater_than_or_equal" then "greater than or equal to"
  else if op == "less_than_or_equal" then "less than or equal to"
  else op

/-- A node executor: `Execute(ctx, node, state) -> (*StepResult, error)`.
The returned state is the (possibly mutated) shared state. -/
def Handler : Type :=
  Node → ExecutionState → ExecutionState × Except String StepResult

/-- `StartExecutor.Execute`. -/
def startExec : Handler := fun node state =>
  (state, .ok
    { nodeId := node.id, nodeType := node.type, label := node.data.label
      status := "completed"
      output := [("message", .vString "Workflow execution started")] })

/-- `EndExecutor.Execute`. -/
def endExec : Handler := fun node state =>
  (state, .ok
    { nodeId := node.id, nodeType := node.type, label := node.data.label
      status := "completed"
      output := [("message", .vString "Workflow execution completed")] })

/-- The field-validation loop of `FormExecutor.Execute`: returns the first
error encountered over the field list, or `none` when all fields pass. -/
def validateForm (fd : List (String × GoVal)) : List String → Option String
  | [] => none
  | f :: rest =>
      match List.lookup f fd with
      | none => some ("missing required field: " ++ f)
      | some v =>
          match asString v with
          | some s =>
              if s.trim == "" then some ("field " ++ f ++ " must be a non-empty string")
              else validateForm fd rest
          | none => some ("field " ++ f ++ " must be a non-empty string")

/-- `FormExecutor.Execute`. -/
def formExec : Handler := fun node state =>
  match validateForm state.formData ["name", "email", "city"] with
  | some e => (state, .error e)
  | none =>
      (state, .ok
        { nodeId := node.id, nodeType := node.type, label := node.data.label
          status := "completed"
          output :=
            [("message", .vString ("Collected user input for " ++ getStr state.formData "name")),
             ("formData", .vMap state.formData)] })

/-- The option-scanning loop of `IntegrationExecutor.Execute`: skip non-map
entries, and on the first case-insensitive city match either fail on
non-numeric coordinates or yield them.  `.ok none` means the city was not
found in the list. -/
def findCoords (city : String) : List GoVal → Except String (Option (ℚ × ℚ))
  | [] => .ok none
  | opt :: rest =>
      match opt with
      | .vMap m =>
          if eqFold (getStr m "city") city then
            match toFloat64 ((List.lookup "lat" m).getD .vNil),
                  toFloat64 ((List.lookup "lon" m).getD .vNil) with
            | some la, some lo => .ok (some (la, lo))
            | _, _ => .error ("invalid coordinates for city \"" ++ city ++ "\"")
          else findCoords city rest
      | _ => findCoords city rest

/-- `IntegrationExecutor.Execute`, parameterized by the injected
temperature-lookup capability `client : lat → lon → temperature ∣ failure`. -/
def integrationExec (client : ℚ → ℚ → Except String ℚ) : Handler := fun node state =>
  let city := getStr state.formData "city"
  match findCoords city (getList node.data.metadata "options") with
  | .error e => (state, .error e)
  | .ok none => (state, .error ("city \"" ++ city ++ "\" not found in available options"))
  | .ok (some (la, lo)) =>
      let endpoint := getStr node.data.metadata "apiEndpoint"
      match client la lo with
      | .error err => (state, .error ("weather API error: " ++ err))
      | .ok temp =>
          ({ state with vars := setKey state.vars "temperature" (.vFloat64 temp) },
           .ok
             { nodeId := node.id, nodeType := node.type, label := node.data.label
               status := "completed"
               output :=
                 [("message", .vString ("Current temperature in " ++ city ++ ": "
                     ++ fmtF1 temp ++ "°C")),
                  ("temperature", .vFloat64 temp),
                  ("location", .vString city),
                  ("apiResponse", .vMap
                    [("endpoint", .vString endpoint),
                     ("method", .vString "GET"),
                     ("statusCode", .vInt 200),
                     ("data", .vMap [("temperature", .vFloat64 temp)])])] })

/-- `ConditionExecutor.Execute`. -/
def conditionExec : Handler := fun node state =>
  match List.lookup "temperature" state.vars with
  | none => (state, .error "temperature variable not set")
  | some tempRaw =>
      match toFloat64 tempRaw with
      | none => (state, .error "temperature is not a number")
      | some temperature =>
          let operator := state.condition.operator
          let threshold := state.condition.threshold
          let result := evaluateCondition temperature operator threshold
          let state' := { state with
            vars := setKey state.vars "conditionResult"
              (.vString (if result then "true" else "false")) }
          let expression := fmtF1 temperature ++ " " ++ operatorSymbol operator
              ++ " " ++ fmtF1 threshold
          let message :=
            if result then
              "Temperature " ++ fmtF1 temperature ++ "°C is " ++ operatorLabel operator
                ++ " " ++ fmtF1 threshold ++ "°C - condition met"
            else
              "Temperature " ++ fmtF1 temperature ++ "°C is not " ++ operatorLabel operator
                ++ " " ++ fmtF1 threshold ++ "°C - condition not met"
          (state', .ok
            { nodeId := node.id, nodeType := node.type, label := node.data.label
              status := "completed"
              output :=
                [("message", .vString message),
                 ("conditionMet", .vBool result),
                 ("conditionResult", .vMap
                   [("expression", .vString expression),
                    ("result", .vBool result),
                    ("temperature", .vFloat64 temperature),
                    ("operator", .vString operator),
                    ("threshold", .vFloat64 threshold)])] })

/-- `EmailExecutor.Execute` (the draft timestamp, a wall-clock value,
is omitted from the embedded output). -/
def emailExec : Handler := fun node state =>
  let name := getStr state.formData "name"
  let email := getStr state.formData "email"
  let city := getStr state.formData "city"
  let temperature := getF64 state.vars "temperature"
  let tmpl := getMap node.data.metadata "emailTemplate"
  let subject0 := getStr tmpl "subject"
  let body0 := getStr tmpl "body"
  let pairs := [("\x7b\x7bname\x7d\x7d", name),
                ("\x7b\x7bcity\x7d\x7d", city),
                ("\x7b\x7btemperature\x7d\x7d", fmtF1 temperature)]
  let body := goReplace pairs body0
  let subject := goReplace pairs subject0
  (state, .ok
    { nodeId := node.id, nodeType := node.type, label := node.data.label
      status := "completed"
      output :=
        [("message", .vString ("Weather alert email drafted for " ++ email)),
         ("emailDraft", .vMap
           [("to", .vString email),
            ("from", .vString "weather-alerts@example.com"),
            ("subject", .vString subject),
            ("body", .vString body)]),
         ("emailContent", .vMap
           [("to", .vString email),
            ("subject", .vString subject),
            ("body", .vString body)]),
         ("emailSent", .vBool true)] })

/-- `Registry`: node type string → executor. -/
def Registry : Type := List (String × Handler)

/-- `NewRegistry`: the six built-in executors. -/
def NewRegistry (client : ℚ → ℚ → Except String ℚ) : Registry :=
  [("start", startExec),
   ("form", formExec),
   ("integration", integrationExec client),
   ("condition", conditionExec),
   ("email", emailExec),
   ("end", endExec)]

/-- `maxSteps` from `engine.go`. -/
def maxSteps : ℕ := 100

/-- Engine error for a missing start node. -/
def noStartMsg : String := "workflow has no start node"

/-- Engine error for an unregistered node type (Go uses `%q`). -/
def unregMsg (ty : String) : String :=
  "no executor registered for node type \"" ++ ty ++ "\""

/-- Engine error for a dangling edge target (Go uses `%q`). -/
def danglingMsg (nid : String) : String :=
  "edge target node \"" ++ nid ++ "\" not found"

/-- Engine error when the step bound is hit. -/
def cycleMsg : String :=
  "execution exceeded maximum of " ++ toString maxSteps ++ " steps (possible cycle)"

/-- `findStartNode` from `engine.go`: the first node of type `start`. -/
def findStartNode (nodes : List Node) : Except String Node :=
  match nodes.find? (fun n => n.type == "start") with
  | some n => .ok n
  | none => .error noStartMsg

/-- The outgoing edges of `src`, in definition order (this equals the
`buildEdgeMap` adjacency entry of `engine.go`, which appends in order). -/
def edgesFrom (edges : List Edge) (src : String) : List Edge :=
  edges.filter (fun e => e.source == src)

/-- Node lookup by id.  The Go `nodeMap` is filled front to back, so a
duplicated id resolves to the last occurrence; hence the reverse search. -/
def lookupNode (nodes : List Node) (nid : String) : Option Node :=
  nodes.reverse.find? (fun n => n.id == nid)

/-- The next-node selection block of `Engine.Execute`: for a `condition`
node, the target of the first outgoing edge whose `sourceHandle` equals the
`conditionResult` branch token (string-asserted, defaulting to `""`);
otherwise the target of the first outgoing edge; `""` when none applies. -/
def selectNext (wf : Workflow) (current : Node) (state' : ExecutionState) : String :=
  let edges := edgesFrom wf.edges current.id
  if current.type == "condition" then
    let condResult := getStr state'.vars "conditionResult"
    match edges.find? (fun e => e.sourceHandle == condResult) with
    | some e => e.target
    | none => ""
  else
    match edges with
    | [] => ""
    | e :: _ => e.target

/-- The step record built for a failing handler invocation:
status `error`, the error text, and the text folded into the output message. -/
def errorStep (num : ℕ) (node : Node) (msg : String) : ExecutionStep :=
  { stepNumber := num, nodeId := node.id, nodeType := node.type
    type := node.type, label := node.data.label
    status := "error"
    output := [("message", .vString ("Error: " ++ msg))]
    error := msg }

/-- The step record built for a successful handler invocation. -/
def okStep (num : ℕ) (node : Node) (result : StepResult) : ExecutionStep :=
  { stepNumber := num, nodeId := node.id, nodeType := node.type
    type := node.type, label := node.data.label
    status := result.status
    output := result.output
    error := "" }

/-- The `for stepNum < maxSteps` loop of `Engine.Execute`, compiled to
structural recursion on `fuel` with invariant `fuel + stepNum = maxSteps`
along every call from `Execute`.  The value is the overall status together
with the steps recorded from this point on; the fuel-0 case and the bound
check in the terminal branch are the two ways the Go post-loop
`stepNum >= maxSteps` check fires. -/
def execLoop (reg : Registry) (wf : Workflow) :
    ℕ → Node → ExecutionState → ℕ → Except String (String × List ExecutionStep)
  | 0, _, _, _ => .error cycleMsg
  | fuel + 1, current, state, stepNum =>
      match List.lookup current.type reg with
      | none => .error (unregMsg current.type)
      | some handler =>
          let hr := handler current state
          let stepNum' := stepNum + 1
          match hr.2 with
          | .error msg => .ok ("failed", [errorStep stepNum' current msg])
          | .ok result =>
              let step := okStep stepNum' current result
              let nextNodeId := selectNext wf current hr.1
              if nextNodeId == "" then
                if maxSteps ≤ stepNum' then .error cycleMsg
                else .ok ("completed", [step])
              else
                match lookupNode wf.nodes nextNodeId with
                | none => .error (danglingMsg nextNodeId)
                | some next =>
                    match execLoop reg wf fuel next hr.1 stepNum' with
                    | .error e => .error e
                    | .ok (st, rest) => .ok (st, step :: rest)

/-- `Engine.Execute`, parameterized by the fresh run identifier `execId`
(generated per call by `uuid.New()` in the Go code). -/
def Execute (reg : Registry) (wf : Workflow) (state : ExecutionState)
    (execId : String) : Except String ExecutionResults :=
  match findStartNode wf.nodes with
  | .error e => .error e
  | .ok start =>
      match execLoop reg wf maxSteps start state 0 with
      | .error e => .error e
      | .ok (st, steps) => .ok { executionId := execId, status := st, steps := steps }

/-- The IEEE-754 binary64 value of the Go expression `0.1 + 0.2`, as an
exact dyadic rational (`0.30000000000000004...`). -/
def fpSum_01_02 : ℚ := 5404319552844596 / 2 ^ 54

/-- The IEEE-754 binary64 value nearest to `0.3`, as an exact dyadic
rational (`0.29999999999999998...`). -/
def fp_03 : ℚ := 5404319552844595 / 2 ^ 54

/-!  Concrete fixtures used by witnesses and counterexamples.
They mirror the graphs of `executor_test.go`. -/

/-- Fixture: a node with the given id, type, label and metadata. -/
def mkNode (i ty lbl : String) (md : List (String × GoVal)) : Node :=
  { id := i, type := ty, position := ⟨0, 0⟩
    data := { label := lbl, description := "", metadata := md } }

/-- Fixture: an edge with the given id, source, target and branch handle. -/
def mkEdge (i s t h : String) : Edge :=
  { id := i, source := s, target := t, label := "", type := ""
    sourceHandle := h, targetHandle := "", animated := false }

/-- Fixture: the six-node weather workflow of `executor_test.go`. -/
def testWf : Workflow :=
  { id := "test-wf", name := "Test Workflow"
    nodes :=
      [mkNode "start" "start" "Start" [],
       mkNode "form" "form" "User Input" [],
       mkNode "weather-api" "integration" "Weather API"
         [("apiEndpoint", .vString "https://api.open-meteo.com/v1/forecast"),
          ("options", .vList
            [.vMap [("city", .vString "Sydney"),
                    ("lat", .vFloat64 (-169344/5000)),
                    ("lon", .vFloat64 (1512093/10000))]])],
       mkNode "condition" "condition" "Check Condition" [],
       mkNode "email" "email" "Send Alert"
         [("emailTemplate", .vMap
           [("subject", .vString "Weather Alert"),
            ("body", .vString
              "Alert for \x7b\x7bcity\x7d\x7d! Temp: \x7b\x7btemperature\x7d\x7d°C!")])],
       mkNode "end" "end" "Complete" []]
    edges :=
      [mkEdge "e1" "start" "form" "",
       mkEdge "e2" "form" "weather-api" "",
       mkEdge "e3" "weather-api" "condition" "",
       mkEdge "e4" "condition" "email" "true",
       mkEdge "e5" "condition" "end" "false",
       mkEdge "e6" "email" "end" ""] }

/-- Fixture: the standard execution input of the tests. -/
def aliceSt : ExecutionState :=
  { formData := [("name", .vString "Alice"),
                 ("email", .vString "alice@example.com"),
                 ("city", .vString "Sydney")]
    condition := { operator := "greater_than", threshold := 25 }
    vars := [] }

/-- Fixture: a weather capability returning a fixed temperature. -/
def clientAt (t : ℚ) : ℚ → ℚ → Except String ℚ := fun _ _ => .ok t

/-- Fixture: a failing weather capability (`API timeout`). -/
def clientFail : ℚ → ℚ → Except String ℚ := fun _ _ => .error "API timeout"

/-- Fixture: an execution state with no form data and empty accumulator. -/
def emptySt : ExecutionState :=
  { formData := [], condition := { operator := "", threshold := 0 }, vars := [] }

/-- Fixture: `k` no-op nodes named `0`, …, `k-1`. -/
def chainNodes (k : ℕ) : List Node :=
  (List.range k).map (fun i => mkNode (toString i) "start" "" [])

/-- Fixture: edges `0→1→⋯→k`. -/
def chainEdges (k : ℕ) : List Edge :=
  (List.range k).map (fun i => mkEdge "" (toString i) (toString (i + 1)) "")

/-- Fixture: a linear chain of `k` no-op nodes ending at a terminal node. -/
def chainWf (k : ℕ) : Workflow :=
  { id := "w", name := "", nodes := chainNodes k, edges := chainEdges (k - 1) }

/-- Fixture: a registry with only the no-op executors
(as in `TestEngine_CycleProtection`). -/
def startReg : Registry := [("start", startExec), ("end", endExec)]

/-- Fixture: 99 no-op nodes followed by a condition node with no outgoing
edges, so the branch-token edge search finds no match at the 100th step. -/
def condChainWf : Workflow :=
  { id := "w", name := ""
    nodes := chainNodes 99 ++ [mkNode "c" "condition" "C" []]
    edges := (List.range 98).map (fun i => mkEdge "" (toString i) (toString (i + 1)) "")
      ++ [mkEdge "" "98" "c" ""] }

/-- Fixture: as `condChainWf` but with the condition node at step 99. -/
def condChainWf99 : Workflow :=
  { id := "w", name := ""
    nodes := chainNodes 98 ++ [mkNode "c" "condition" "C" []]
    edges := (List.range 97).map (fun i => mkEdge "" (toString i) (toString (i + 1)) "")
      ++ [mkEdge "" "97" "c" ""] }

/-- Fixture: a registry handling no-op and condition nodes. -/
def condReg : Registry := [("start", startExec), ("condition", conditionExec)]

/-- Fixture: input for the condition fixtures (temperature preloaded). -/
def condSt : ExecutionState :=
  { formData := [], condition := { operator := "greater_than", threshold := 25 }
    vars := [("temperature", .vFloat64 30)] }

/-- Fixture: a two-node workflow whose second step is a failing form node. -/
def failFormWf : Workflow :=
  { id := "w", name := ""
    nodes := [mkNode "s" "start" "Start" [], mkNode "f" "form" "Form" []]
    edges := [mkEdge "e1" "s" "f" ""] }

/-- Fixture: a workflow without a start node (as in `TestEngine_NoStartNode`). -/
def noStartWf : Workflow :=
  { id := "w", name := "", nodes := [mkNode "end" "end" "End" []], edges := [] }

/-- Fixture: a workflow whose only edge dangles into a missing node. -/
def danglingWf : Workflow :=
  { id := "w", name := ""
    nodes := [mkNode "s" "start" "Start" []]
    edges := [mkEdge "e1" "s" "ghost" ""] }

/-- Fixture: the step result produced by the start executor on node `s`. -/
def startStepRes : StepResult :=
  { nodeId := "s", nodeType := "start", label := "Start", status := "completed"
    output := [("message", .vString "Workflow execution started")] }

/-- Fixture: a condition node feeding one `true`-handled edge to an end node. -/
def condPairWf : Workflow :=
  { id := "w", name := ""
    nodes := [mkNode "c" "condition" "C" [], mkNode "t" "end" "T" []]
    edges := [mkEdge "e1" "c" "t" "true"] }

/-- Fixture: a registry that dispatches `condition`-typed nodes to the
no-op start executor (edge selection only depends on the node type and the
stored branch token, not on which handler ran). -/
def selReg : Registry := [("condition", startExec)]

/-- Fixture: a state whose accumulator already carries branch token `true`. -/
def selSt : ExecutionState :=
  { formData := [], condition := { operator := "", threshold := 0 }
    vars := [("conditionResult", .vString "true")] }

/-- Fixture: the start-executor step result on the condition-typed node `c`. -/
def condNodeRes : StepResult :=
  { nodeId := "c", nodeType := "condition", label := "C", status := "completed"
    output := [("message", .vString "Workflow execution started")] }

/-- Fixture: an integration node with a single Sydney option. -/
def sydneyNode : Node :=
  mkNode "w" "integration" "Weather API"
    [("apiEndpoint", .vString "https://api.open-meteo.com/v1/forecast"),
     ("options", .vList
       [.vMap [("city", .vString "Sydney"), ("lat", .vFloat64 1), ("lon", .vFloat64 2)]])]

/-- Fixture: a Sydney option entry whose latitude is not numeric. -/
def badCoordOption : List (String × GoVal) :=
  [("city", .vString "Sydney"), ("lat", .vString "oops"), ("lon", .vFloat64 2)]

/-- Fixture: an execution state whose city is absent from the options. -/
def parisSt : ExecutionState :=
  { formData := [("city", .vString "Paris")]
    condition := { operator := "", threshold := 0 }, vars := [] }

/-- A handler whose successful step results always carry status
`completed` (true of every built-in executor). -/
def GoodHandler (h : Handler) : Prop :=
  ∀ node st res, (h node st).2 = .ok res → res.status = "completed"

/-- `getStr` reads back the binding just written by `setKey`. -/
theorem getStr_setKey (m : List (String × GoVal)) (k : String) (s : String) :
    getStr (setKey m k (.vString s)) k = s := by
  induction m with
  | nil => simp [setKey, getStr]
  | cons p rest ih =>
      obtain ⟨k', v'⟩ := p
      by_cases h : k' = k
      · subst h; simp [setKey, getStr]
      · have hb : (k' == k) = false := beq_eq_false_iff_ne.mpr h
        have hb' : (k == k') = false := beq_eq_false_iff_ne.mpr (Ne.symm h)
        simp only [getStr] at ih ⊢
        simpa [setKey, hb, hb', List.lookup] using ih

/-- The start executor only produces `completed` step results. -/
theorem goodHandler_startExec : GoodHandler startExec := by
  intro node st res h
  simp only [startExec] at h
  obtain rfl := Except.ok.inj h
  rfl

/-- The end executor only produces `completed` step results. -/
theorem goodHandler_endExec : GoodHandler endExec := by
  intro node st res h
  simp only [endExec] at h
  obtain rfl := Except.ok.inj h
  rfl

/-- The form executor only produces `completed` step results. -/
theorem goodHandler_formExec : GoodHandler formExec := by
  intro node st res h
  simp only [formExec] at h
  cases hv : validateForm st.formData ["name", "email", "city"] with
  | some e => simp [hv] at h
  | none =>
      simp only [hv] at h
      obtain rfl := Except.ok.inj h
      rfl

/-- The integration executor only produces `completed` step results. -/
theorem goodHandler_integrationExec (client : ℚ → ℚ → Except String ℚ) :
    GoodHandler (integrationExec client) := by
  intro node st res h
  simp only [integrationExec] at h
  cases hc : findCoords (getStr st.formData "city") (getList node.data.metadata "options") with
  | error e => simp [hc] at h
  | ok o =>
      cases o with
      | none => simp [hc] at h
      | some p =>
          obtain ⟨la, lo⟩ := p
          simp only [hc] at h
          cases hcl : client la lo with
          | error e => simp [hcl] at h
          | ok temp =>
              simp only [hcl] at h
              obtain rfl := Except.ok.inj h
              rfl

/-- The condition executor only produces `completed` step results. -/
theorem goodHandler_conditionExec : GoodHandler conditionExec := by
  intro node st res h
  simp only [conditionExec] at h
  cases hv : List.lookup "temperature" st.vars with
  | none => simp [hv] at h
  | some v =>
      simp only [hv] at h
      cases ht : toFloat64 v with
      | none => simp [ht] at h
      | some t =>
          simp only [ht] at h
          obtain rfl := Except.ok.inj h
          rfl

/-- The email executor only produces `completed` step results. -/
theorem goodHandler_emailExec : GoodHandler emailExec := by
  intro node st res h
  simp only [emailExec] at h
  obtain rfl := Except.ok.inj h
  rfl

/-- Every handler of the standard registry only produces `completed`
step results on success. -/
theorem goodHandler_newRegistry (client : ℚ → ℚ → Except String ℚ) :
    ∀ ty h, List.lookup ty (NewRegistry client) = some h → GoodHandler h := by
  intro ty h hl
  simp only [NewRegistry, List.lookup] at hl
  split at hl
  · exact (Option.some.inj hl) ▸ goodHandler_startExec
  split at hl
  · exact (Option.some.inj hl) ▸ goodHandler_formExec
  split at hl
  · exact (Option.some.inj hl) ▸ goodHandler_integrationExec client
  split at hl
  · exact (Option.some.inj hl) ▸ goodHandler_conditionExec
  split at hl
  · exact (Option.some.inj hl) ▸ goodHandler_emailExec
  split at hl
  · exact (Option.some.inj hl) ▸ goodHandler_endExec
  · exact absurd hl (by simp)

/-- Trace invariant of the engine loop over a registry of good handlers:
a returned results pair is either `completed` with every step `completed`,
or `failed` with all steps but the last `completed` and an error last step
whose output message folds in the error text. -/
theorem execLoop_ok_trace (reg : Registry) (wf : Workflow)
    (hreg : ∀ ty h, List.lookup ty reg = some h → GoodHandler h) :
    ∀ fuel current state stepNum st steps,
      execLoop reg wf fuel current state stepNum = .ok (st, steps) →
      (st = "completed" ∧ ∀ s ∈ steps, s.status = "completed") ∨
      (st = "failed" ∧ ∃ pre last, steps = pre ++ [last] ∧
        (∀ s ∈ pre, s.status = "completed") ∧ last.status = "error" ∧
        last.output = [("message", .vString ("Error: " ++ last.error))]) := by
  intro fuel
  induction fuel with
  | zero =>
      intro current state stepNum st steps h
      simp [execLoop] at h
  | succ fuel ih =>
      intro current state stepNum st steps h
      simp only [execLoop] at h
      cases hl : List.lookup current.type reg with
      | none => simp [hl] at h
      | some handler =>
          simp only [hl] at h
          cases hh : (handler current state).2 with
          | error msg =>
              simp only [hh] at h
              obtain ⟨rfl, rfl⟩ := Prod.mk.injEq .. ▸ Except.ok.inj h
              right
              exact ⟨rfl, [], errorStep (stepNum + 1) current msg, by simp, by simp,
                rfl, rfl⟩
          | ok result =>
              simp only [hh] at h
              have hstatus : result.status = "completed" := hreg _ _ hl current state result hh
              by_cases hsel : selectNext wf current (handler current state).1 = ""
              · rw [hsel] at h
                simp only [beq_self_eq_true, if_true] at h
                by_cases hbound : maxSteps ≤ stepNum + 1
                · simp [hbound] at h
                · simp only [if_neg hbound] at h
                  obtain ⟨rfl, rfl⟩ := Prod.mk.injEq .. ▸ Except.ok.inj h
                  left
                  refine ⟨rfl, ?_⟩
                  intro s hs
                  simp only [List.mem_singleton] at hs
                  subst hs
                  exact hstatus
              · have hbe : (selectNext wf current (handler current state).1 == "") = false :=
                  beq_eq_false_iff_ne.mpr hsel
                simp only [hbe, Bool.false_eq_true, if_false] at h
                cases hn : lookupNode wf.nodes (selectNext wf current (handler current state).1) with
                | none => simp [hn] at h
                | some next =>
                    simp only [hn] at h
                    cases hrec : execLoop reg wf fuel next (handler current state).1 (stepNum + 1) with
                    | error e => simp [hrec] at h
                    | ok p =>
                        obtain ⟨st', rest⟩ := p
                        simp only [hrec] at h
                        obtain ⟨rfl, rfl⟩ := Prod.mk.injEq .. ▸ Except.ok.inj h
                        rcases ih next (handler current state).1 (stepNum + 1) st' rest hrec with
                          ⟨hst, hall⟩ | ⟨hst, pre, last, hsteps, hpre, hlast, hout⟩
                        · left
                          refine ⟨hst, ?_⟩
                          intro s hs
                          rcases List.mem_cons.mp hs with rfl | hs
                          · exact hstatus
                          · exact hall s hs
                        · right
                          refine ⟨hst, okStep (stepNum + 1) current result :: pre, last,
                            by simp [hsteps], ?_, hlast, hout⟩
                          intro s hs
                          rcases List.mem_cons.mp hs with rfl | hs
                          · exact hstatus
                          · exact hpre s hs

/-- Step-count invariant of the engine loop: a `completed` return means the
terminal node was reached strictly before the step bound. -/
theorem execLoop_completed_before_bound (reg : Registry) (wf : Workflow) :
    ∀ fuel current state stepNum st steps,
      execLoop reg wf fuel current state stepNum = .ok (st, steps) →
      st = "completed" → stepNum + steps.length < maxSteps := by
  intro fuel
  induction fuel with
  | zero =>
      intro current state stepNum st steps h
      simp [execLoop] at h
  | succ fuel ih =>
      intro current state stepNum st steps h hst
      simp only [execLoop] at h
      cases hl : List.lookup current.type reg with
      | none => simp [hl] at h
      | some handler =>
          simp only [hl] at h
          cases hh : (handler current state).2 with
          | error msg =>
              simp only [hh] at h
              obtain ⟨rfl, rfl⟩ := Prod.mk.injEq .. ▸ Except.ok.inj h
              simp at hst
          | ok result =>
              simp only [hh] at h
              by_cases hsel : selectNext wf current (handler current state).1 = ""
              · rw [hsel] at h
                simp only [beq_self_eq_true, if_true] at h
                by_cases hbound : maxSteps ≤ stepNum + 1
                · simp [hbound] at h
                · simp only [if_neg hbound] at h
                  obtain ⟨rfl, rfl⟩ := Prod.mk.injEq .. ▸ Except.ok.inj h
                  simpa using Nat.lt_of_not_le hbound
              · have hbe : (selectNext wf current (handler current state).1 == "") = false :=
                  beq_eq_false_iff_ne.mpr hsel
                simp only [hbe, Bool.false_eq_true, if_false] at h
                cases hn : lookupNode wf.nodes (selectNext wf current (handler current state).1) with
                | none => simp [hn] at h
                | some next =>
                    simp only [hn] at h
                    cases hrec : execLoop reg wf fuel next (handler current state).1 (stepNum + 1) with
                    | error e => simp [hrec] at h
                    | ok p =>
                        obtain ⟨st', rest⟩ := p
                        simp only [hrec] at h
                        obtain ⟨rfl, rfl⟩ := Prod.mk.injEq .. ▸ Except.ok.inj h
                        have := ih next (handler current state).1 (stepNum + 1) st' rest hrec hst
                        simpa [Nat.add_comm, Nat.add_left_comm] using this

/-- Claim C4: condition evaluation first rounds temperature and threshold to
one decimal place and then applies the operator; whenever the two inputs are
separated by more than `0.05` the result is the corresponding mathematical
relation on the rounded values, and `equals` accepts the binary64 value of
`0.1 + 0.2` against threshold `0.3`. -/
theorem evaluateCondition_rounds_then_compares (t th : ℚ) (hsep : |t - th| > 1/20) :
    (evaluateCondition t "greater_than" th = true ↔ round1 t > round1 th) ∧
    (evaluateCondition t "less_than" th = true ↔ round1 t < round1 th) ∧
    (evaluateCondition t "equals" th = true ↔ round1 t = round1 th) ∧
    (evaluateCondition t "greater_than_or_equal" th = true ↔ round1 t ≥ round1 th) ∧
    (evaluateCondition t "less_than_or_equal" th = true ↔ round1 t ≤ round1 th) ∧
    evaluateCondition fpSum_01_02 "equals" fp_03 = true := by
  refine ⟨?_, ?_, ?_, ?_, ?_, ?_⟩
  · simp [evaluateCondition]
  · simp [evaluateCondition]
  · simp [evaluateCondition]
  · simp [evaluateCondition]
  · simp [evaluateCondition]
  · have hA : round1 fpSum_01_02 = 3 / 10 := by
      rw [round1, goRound, if_pos (by rw [fpSum_01_02]; positivity)]
      have h : ⌊fpSum_01_02 * 10 + 1/2⌋ = (3 : ℤ) := by
        rw [Int.floor_eq_iff]
        constructor
        · rw [fpSum_01_02]; norm_num
        · rw [fpSum_01_02]; norm_num
      rw [h]; norm_num
    have hB : round1 fp_03 = 3 / 10 := by
      rw [round1, goRound, if_pos (by rw [fp_03]; positivity)]
      have h : ⌊fp_03 * 10 + 1/2⌋ = (3 : ℤ) := by
        rw [Int.floor_eq_iff]
        constructor
        · rw [fp_03]; norm_num
        · rw [fp_03]; norm_num
      rw [h]; norm_num
    simp [evaluateCondition, hA, hB]

/-- Witness for C4 at temperature `1`, threshold `0`. -/
theorem evaluateCondition_rounds_then_compares_witness :
    |(1 : ℚ) - 0| > 1/20 ∧
    (evaluateCondition 1 "greater_than" 0 = true ↔ round1 1 > round1 0) := by
  constructor
  · norm_num
  · exact (evaluateCondition_rounds_then_compares 1 0 (by norm_num)).1

/-- Claim C8: an operator outside the five recognized tokens does not make
the condition handler fail: evaluation yields `false`, the branch token
`"false"` is stored in the accumulator, and the step completes. -/
theorem conditionExec_unknown_operator (node : Node) (state : ExecutionState)
    (v : GoVal) (t : ℚ)
    (hop : state.condition.operator ∉
      ["greater_than", "less_than", "equals",
       "greater_than_or_equal", "less_than_or_equal"])
    (hv : List.lookup "temperature" state.vars = some v)
    (ht : toFloat64 v = some t) :
    evaluateCondition t state.condition.operator state.condition.threshold = false ∧
    ∃ res, conditionExec node state =
      ({ state with vars := setKey state.vars "conditionResult" (.vString "false") },
        .ok res) ∧
      res.status = "completed" ∧
      getStr (conditionExec node state).1.vars "conditionResult" = "false" := by
  have h1 : (state.condition.operator == "greater_than") = false :=
    beq_eq_false_iff_ne.mpr (fun h => hop (by simp [h]))
  have h2 : (state.condition.operator == "less_than") = false :=
    beq_eq_false_iff_ne.mpr (fun h => hop (by simp [h]))
  have h3 : (state.condition.operator == "equals") = false :=
    beq_eq_false_iff_ne.mpr (fun h => hop (by simp [h]))
  have h4 : (state.condition.operator == "greater_than_or_equal") = false :=
    beq_eq_false_iff_ne.mpr (fun h => hop (by simp [h]))
  have h5 : (state.condition.operator == "less_than_or_equal") = false :=
    beq_eq_false_iff_ne.mpr (fun h => hop (by simp [h]))
  have heval : evaluateCondition t state.condition.operator state.condition.threshold
      = false := by
    simp [evaluateCondition, h1, h2, h3, h4, h5]
  refine ⟨heval, ?_⟩
  refine ⟨{ nodeId := node.id, nodeType := node.type, label := node.data.label,
            status := "completed", output := ?_ }, ?_, rfl, ?_⟩
  · exact [("message", .vString ("Temperature " ++ fmtF1 t ++ "°C is not "
        ++ operatorLabel state.condition.operator ++ " "
        ++ fmtF1 state.condition.threshold ++ "°C - condition not met")),
      ("conditionMet", .vBool false),
      ("conditionResult", .vMap
        [("expression", .vString (fmtF1 t ++ " " ++ operatorSymbol state.condition.operator
            ++ " " ++ fmtF1 state.condition.threshold)),
         ("result", .vBool false),
         ("temperature", .vFloat64 t),
         ("operator", .vString state.condition.operator),
         ("threshold", .vFloat64 state.condition.threshold)])]
  · simp only [conditionExec, hv, ht, heval]
    rfl
  · simp only [conditionExec, hv, ht, heval]
    exact getStr_setKey state.vars "conditionResult" "false"

/-- Witness for C8 with operator `"between"`, temperature `30`. -/
theorem conditionExec_unknown_operator_witness :
    evaluateCondition 30 "between" 25 = false ∧
    ∃ res, conditionExec (mkNode "c" "condition" "C" [])
        { formData := [], condition := { operator := "between", threshold := 25 },
          vars := [("temperature", .vFloat64 30)] } =
      ({ formData := [], condition := { operator := "between", threshold := 25 },
         vars := [("temperature", .vFloat64 30),
                  ("conditionResult", .vString "false")] }, .ok res) ∧
      res.status = "completed" := by
  have h := conditionExec_unknown_operator (mkNode "c" "condition" "C" [])
    { formData := [], condition := { operator := "between", threshold := 25 },
      vars := [("temperature", .vFloat64 30)] }
    (.vFloat64 30) 30 (by decide) rfl rfl
  obtain ⟨heval, res, hexec, hstatus, -⟩ := h
  exact ⟨heval, res, by simpa [setKey] using hexec, hstatus⟩

/-- Claim C1: a handler error is captured as data, not an engine error:
the loop immediately returns a non-error results pair with overall status
`failed` whose only further step is the erroring one (status `error`, the
handler's error text folded into the output message), so no further node
is visited; and every `failed` result of `Execute` over the standard
registry consists of `completed` steps followed by one final `error` step. -/
theorem handler_error_partial_results (client : ℚ → ℚ → Except String ℚ) :
    (∀ (wf : Workflow) fuel node st stepNum handler state' msg,
       List.lookup node.type (NewRegistry client) = some handler →
       handler node st = (state', .error msg) →
       execLoop (NewRegistry client) wf (fuel + 1) node st stepNum =
         .ok ("failed", [errorStep (stepNum + 1) node msg]) ∧
       (errorStep (stepNum + 1) node msg).status = "error" ∧
       (errorStep (stepNum + 1) node msg).output
         = [("message", .vString ("Error: " ++ msg))]) ∧
    (∀ wf state execId r,
       Execute (NewRegistry client) wf state execId = .ok r →
       r.status = "failed" →
       ∃ pre last, r.steps = pre ++ [last] ∧ (∀ s ∈ pre, s.status = "completed") ∧
         last.status = "error" ∧
         last.output = [("message", .vString ("Error: " ++ last.error))]) := by
  constructor
  · intro wf fuel node st stepNum handler state' msg hl hh
    refine ⟨?_, rfl, rfl⟩
    simp only [execLoop, hl, hh]
  · intro wf state execId r hex hst
    unfold Execute at hex
    cases hf : findStartNode wf.nodes with
    | error e => simp [hf] at hex
    | ok start =>
        simp only [hf] at hex
        cases hloop : execLoop (NewRegistry client) wf maxSteps start state 0 with
        | error e => simp [hloop] at hex
        | ok p =>
            obtain ⟨st, steps⟩ := p
            simp only [hloop] at hex
            obtain rfl := Except.ok.inj hex
            simp only at hst
            rcases execLoop_ok_trace (NewRegistry client) wf
                (goodHandler_newRegistry client) maxSteps start state 0 st steps hloop with
              ⟨hc, -⟩ | ⟨-, pre, last, hsteps, hpre, hlast, hout⟩
            · rw [hst] at hc; exact absurd hc (by decide)
            · exact ⟨pre, last, hsteps, hpre, hlast, hout⟩

/-- Witness for C1: over the standard registry, a form node with no form
data errors at step 2; both conjuncts are instantiated on that run. -/
theorem handler_error_partial_results_witness :
    (execLoop (NewRegistry (clientAt 30)) failFormWf 99
        (mkNode "f" "form" "Form" []) emptySt 1 =
      .ok ("failed", [errorStep 2 (mkNode "f" "form" "Form" [])
        "missing required field: name"])) ∧
    (∃ pre last,
      (match Execute (NewRegistry (clientAt 30)) failFormWf emptySt "run-1" with
       | .ok r => r.steps
       | .error _ => []) = pre ++ [last] ∧
      (∀ s ∈ pre, s.status = "completed") ∧ last.status = "error" ∧
      last.output = [("message", .vString ("Error: " ++ last.error))]) := by
  constructor
  · exact ((handler_error_partial_results (clientAt 30)).1 failFormWf 98
      (mkNode "f" "form" "Form" []) emptySt 1 formExec emptySt
      "missing required field: name" rfl rfl).1
  · have h := (handler_error_partial_results (clientAt 30)).2 failFormWf emptySt "run-1"
      { executionId := "run-1", status := "failed"
        steps := [okStep 1 (mkNode "s" "start" "Start" []) startStepRes,
                  errorStep 2 (mkNode "f" "form" "Form" [])
                    "missing required field: name"] }
      rfl rfl
    simpa using h

/-- Claim C2: each engine-level failure is an error return of `Execute`
(no results object): missing start node, unregistered node type (recorded
as no step), dangling edge target, and exhaustion of the step budget; and
a loop error propagates to an `Execute` error. -/
theorem engine_level_failures (reg : Registry) (wf : Workflow) :
    (∀ state execId, (∀ n ∈ wf.nodes, n.type ≠ "start") →
        Execute reg wf state execId = .error noStartMsg) ∧
    (∀ fuel current state stepNum, List.lookup current.type reg = none →
        execLoop reg wf (fuel + 1) current state stepNum = .error (unregMsg current.type)) ∧
    (∀ fuel current state stepNum handler state' res,
        List.lookup current.type reg = some handler →
        handler current state = (state', .ok res) →
        selectNext wf current state' ≠ "" →
        lookupNode wf.nodes (selectNext wf current state') = none →
        execLoop reg wf (fuel + 1) current state stepNum
          = .error (danglingMsg (selectNext wf current state'))) ∧
    (∀ current state stepNum, execLoop reg wf 0 current state stepNum = .error cycleMsg) ∧
    (∀ state execId start e, findStartNode wf.nodes = .ok start →
        execLoop reg wf maxSteps start state 0 = .error e →
        Execute reg wf state execId = .error e) := by
  refine ⟨?_, ?_, ?_, ?_, ?_⟩
  · intro state execId hno
    have hfind : findStartNode wf.nodes = .error noStartMsg := by
      unfold findStartNode
      have hnone : wf.nodes.find? (fun n => n.type == "start") = none := by
        rw [List.find?_eq_none]
        intro n hn
        simpa using hno n hn
      rw [hnone]
    unfold Execute
    rw [hfind]
  · intro fuel current state stepNum hl
    simp only [execLoop, hl]
  · intro fuel current state stepNum handler state' res hl hh hne hnode
    have hbe : (selectNext wf current state' == "") = false := beq_eq_false_iff_ne.mpr hne
    simp only [execLoop, hl, hh, hbe, Bool.false_eq_true, if_false, hnode]
  · intro current state stepNum
    simp only [execLoop]
  · intro state execId start e hfind hloop
    unfold Execute
    rw [hfind]
    dsimp only
    rw [hloop]

/-- Witness for C2, instantiating each engine-level failure concretely. -/
theorem engine_level_failures_witness :
    Execute startReg noStartWf emptySt "run-1" = .error noStartMsg ∧
    execLoop startReg noStartWf 1 (mkNode "u" "webhook" "U" []) emptySt 0
      = .error (unregMsg "webhook") ∧
    execLoop startReg danglingWf 1 (mkNode "s" "start" "Start" []) emptySt 0
      = .error (danglingMsg (selectNext danglingWf (mkNode "s" "start" "Start" []) emptySt)) ∧
    execLoop startReg noStartWf 0 (mkNode "e" "end" "End" []) emptySt 100
      = .error cycleMsg := by
  refine ⟨?_, ?_, ?_, ?_⟩
  · exact (engine_level_failures startReg noStartWf).1 emptySt "run-1" (by decide)
  · exact (engine_level_failures startReg noStartWf).2.1 0
      (mkNode "u" "webhook" "U" []) emptySt 0 rfl
  · exact (engine_level_failures startReg danglingWf).2.2.1 0
      (mkNode "s" "start" "Start" []) emptySt 0 startExec emptySt startStepRes
      rfl rfl (by decide) rfl
  · exact (engine_level_failures startReg noStartWf).2.2.2.1
      (mkNode "e" "end" "End" []) emptySt 100

/-- Claim C6: two `Execute` calls over the same definition, equal initial
state and the same capability outcomes produce identical step traces and
overall status, while carrying the distinct fresh run identifiers supplied
to each call. -/
theorem execute_same_input_same_steps (reg : Registry) (wf : Workflow)
    (state : ExecutionState) (id1 id2 : String) (h : id1 ≠ id2) :
    match Execute reg wf state id1, Execute reg wf state id2 with
    | .ok r1, .ok r2 =>
        r1.steps = r2.steps ∧ r1.status = r2.status ∧
        r1.executionId = id1 ∧ r2.executionId = id2 ∧
        r1.executionId ≠ r2.executionId
    | .error e1, .error e2 => e1 = e2
    | _, _ => False := by
  unfold Execute
  cases findStartNode wf.nodes with
  | error e => exact rfl
  | ok start =>
      dsimp only
      cases execLoop reg wf maxSteps start state 0 with
      | error e => exact rfl
      | ok p =>
          obtain ⟨st, steps⟩ := p
          dsimp only
          exact ⟨rfl, rfl, rfl, rfl, h⟩

/-- Witness for C6 on a two-node chain with distinct run identifiers. -/
theorem execute_same_input_same_steps_witness :
    match Execute startReg (chainWf 2) emptySt "id1",
          Execute startReg (chainWf 2) emptySt "id2" with
    | .ok r1, .ok r2 =>
        r1.steps = r2.steps ∧ r1.status = r2.status ∧
        r1.executionId = "id1" ∧ r2.executionId = "id2" ∧
        r1.executionId ≠ r2.executionId
    | .error e1, .error e2 => e1 = e2
    | _, _ => False :=
  execute_same_input_same_steps startReg (chainWf 2) emptySt "id1" "id2" (by decide)

set_option maxRecDepth 400000 in
/-- Counterexample to C3 as stated: a 100-node linear chain reaches its
terminal node exactly at the 100th step, every handler succeeds and no other
engine-level failure occurs, yet `Execute` returns the possible-cycle error
instead of `completed`; the same chain shortened to 99 nodes completes. -/
theorem cycle_bound_counterexample :
    Execute startReg (chainWf 100) emptySt "run-1" = .error cycleMsg ∧
    (∃ r, Execute startReg (chainWf 99) emptySt "run-1" = .ok r ∧
      r.status = "completed" ∧ r.steps.length = 99) := by
  constructor
  · rfl
  · exact ⟨_, rfl, rfl, rfl⟩

/-- Claim C3 as amended: the possible-cycle error fires exactly when the
step budget is consumed — also when the 100th step reaches a terminal edge —
so `completed` results always hold strictly fewer than 100 steps, and a
terminal reached strictly before the bound yields `completed`. -/
theorem cycle_bound_amended (reg : Registry) (wf : Workflow) :
    (∀ current state stepNum,
        execLoop reg wf 0 current state stepNum = .error cycleMsg) ∧
    (∀ fuel current state stepNum handler state' res,
        List.lookup current.type reg = some handler →
        handler current state = (state', .ok res) →
        selectNext wf current state' = "" →
        maxSteps ≤ stepNum + 1 →
        execLoop reg wf (fuel + 1) current state stepNum = .error cycleMsg) ∧
    (∀ fuel current state stepNum handler state' res,
        List.lookup current.type reg = some handler →
        handler current state = (state', .ok res) →
        selectNext wf current state' = "" →
        stepNum + 1 < maxSteps →
        execLoop reg wf (fuel + 1) current state stepNum
          = .ok ("completed", [okStep (stepNum + 1) current res])) ∧
    (∀ state execId r, Execute reg wf state execId = .ok r →
        r.status = "completed" → r.steps.length < maxSteps) := by
  refine ⟨?_, ?_, ?_, ?_⟩
  · intro current state stepNum
    simp only [execLoop]
  · intro fuel current state stepNum handler state' res hl hh hsel hbound
    simp only [execLoop, hl, hh, hsel, beq_self_eq_true, if_true]
    rw [if_pos hbound]
  · intro fuel current state stepNum handler state' res hl hh hsel hlt
    simp only [execLoop, hl, hh, hsel, beq_self_eq_true, if_true]
    rw [if_neg (Nat.not_le.mpr hlt)]
  · intro state execId r hex hst
    unfold Execute at hex
    cases hf : findStartNode wf.nodes with
    | error e => simp [hf] at hex
    | ok start =>
        simp only [hf] at hex
        cases hloop : execLoop reg wf maxSteps start state 0 with
        | error e => simp [hloop] at hex
        | ok p =>
            obtain ⟨st, steps⟩ := p
            simp only [hloop] at hex
            obtain rfl := Except.ok.inj hex
            simp only at hst
            simpa using execLoop_completed_before_bound reg wf maxSteps start state 0
              st steps hloop hst

/-- Witness for the amended C3: a one-step terminal run below the bound
completes, and the same step at the bound produces the cycle error. -/
theorem cycle_bound_amended_witness :
    execLoop startReg noStartWf 1 (mkNode "end" "end" "End" []) emptySt 0
      = .ok ("completed", [okStep 1 (mkNode "end" "end" "End" [])
          { nodeId := "end", nodeType := "end", label := "End", status := "completed"
            output := [("message", .vString "Workflow execution completed")] }]) ∧
    execLoop startReg noStartWf 1 (mkNode "end" "end" "End" []) emptySt 99
      = .error cycleMsg := by
  constructor
  · exact (cycle_bound_amended startReg noStartWf).2.2.1 0
      (mkNode "end" "end" "End" []) emptySt 0 endExec emptySt _ rfl rfl rfl (by decide)
  · exact (cycle_bound_amended startReg noStartWf).2.1 0
      (mkNode "end" "end" "End" []) emptySt 99 endExec emptySt
      { nodeId := "end", nodeType := "end", label := "End", status := "completed"
        output := [("message", .vString "Workflow execution completed")] }
      rfl rfl rfl (by decide)

set_option maxRecDepth 400000 in
/-- Counterexample to C5 as stated: a condition node whose branch token
matches no outgoing edge at exactly the 100th step makes `Execute` return
the possible-cycle error, not a `completed` result; one step earlier the
same situation does complete. -/
theorem condition_no_match_counterexample :
    Execute condReg condChainWf condSt "run-1" = .error cycleMsg ∧
    (∃ r, Execute condReg condChainWf99 condSt "run-1" = .ok r ∧
      r.status = "completed" ∧ r.steps.length = 99) := by
  constructor
  · rfl
  · exact ⟨_, rfl, rfl, rfl⟩

/-- Claim C5 as amended: after a successful step the engine selects the next
node as follows — for a `condition` node, the first outgoing edge whose
`sourceHandle` equals the branch token the handler just stored (continuing
into its target); with no matching edge the run ends `completed` provided
the step bound has not been reached; for any other node type the first
outgoing edge is taken; and the condition handler stores exactly the
`"true"`/`"false"` token of the evaluated predicate. -/
theorem engine_edge_selection (reg : Registry) (wf : Workflow) :
    (∀ fuel current state stepNum handler state' res e next,
        List.lookup current.type reg = some handler →
        handler current state = (state', .ok res) →
        current.type = "condition" →
        (edgesFrom wf.edges current.id).find?
          (fun ed => ed.sourceHandle == getStr state'.vars "conditionResult") = some e →
        e.target ≠ "" →
        lookupNode wf.nodes e.target = some next →
        execLoop reg wf (fuel + 1) current state stepNum =
          (match execLoop reg wf fuel next state' (stepNum + 1) with
           | .error er => .error er
           | .ok (s, rest) => .ok (s, okStep (stepNum + 1) current res :: rest))) ∧
    (∀ fuel current state stepNum handler state' res,
        List.lookup current.type reg = some handler →
        handler current state = (state', .ok res) →
        current.type = "condition" →
        (edgesFrom wf.edges current.id).find?
          (fun ed => ed.sourceHandle == getStr state'.vars "conditionResult") = none →
        stepNum + 1 < maxSteps →
        execLoop reg wf (fuel + 1) current state stepNum
          = .ok ("completed", [okStep (stepNum + 1) current res])) ∧
    (∀ fuel current state stepNum handler state' res e es next,
        List.lookup current.type reg = some handler →
        handler current state = (state', .ok res) →
        current.type ≠ "condition" →
        edgesFrom wf.edges current.id = e :: es →
        e.target ≠ "" →
        lookupNode wf.nodes e.target = some next →
        execLoop reg wf (fuel + 1) current state stepNum =
          (match execLoop reg wf fuel next state' (stepNum + 1) with
           | .error er => .error er
           | .ok (s, rest) => .ok (s, okStep (stepNum + 1) current res :: rest))) ∧
    (∀ node state v t,
        List.lookup "temperature" state.vars = some v →
        toFloat64 v = some t →
        getStr (conditionExec node state).1.vars "conditionResult"
          = (if evaluateCondition t state.condition.operator state.condition.threshold
             then "true" else "false")) := by
  refine ⟨?_, ?_, ?_, ?_⟩
  · intro fuel current state stepNum handler state' res e next hl hh hcond hfind hne hnext
    have hbe : (e.target == "") = false := beq_eq_false_iff_ne.mpr hne
    have hsel : selectNext wf current state' = e.target := by
      simp only [selectNext, hcond, beq_self_eq_true, if_true, hfind]
    simp only [execLoop, hl, hh, hsel, hbe, Bool.false_eq_true, if_false, hnext]
  · intro fuel current state stepNum handler state' res hl hh hcond hfind hlt
    have hsel : selectNext wf current state' = "" := by
      simp only [selectNext, hcond, beq_self_eq_true, if_true, hfind]
    simp only [execLoop, hl, hh, hsel, beq_self_eq_true, if_true]
    rw [if_neg (Nat.not_le.mpr hlt)]
  · intro fuel current state stepNum handler state' res e es next hl hh hcond hedges hne hnext
    have hbc : (current.type == "condition") = false := beq_eq_false_iff_ne.mpr hcond
    have hbe : (e.target == "") = false := beq_eq_false_iff_ne.mpr hne
    have hsel : selectNext wf current state' = e.target := by
      simp only [selectNext, hbc, Bool.false_eq_true, if_false, hedges]
    simp only [execLoop, hl, hh, hsel, hbe, Bool.false_eq_true, if_false, hnext]
  · intro node state v t hv ht
    simp only [conditionExec, hv, ht]
    cases hec : evaluateCondition t state.condition.operator state.condition.threshold
    · simp only [hec, Bool.false_eq_true, if_false]
      exact getStr_setKey state.vars "conditionResult" "false"
    · simp only [hec, if_true]
      exact getStr_setKey state.vars "conditionResult" "true"

/-- Witness for the amended C5: branch selection on the `true` edge of a
two-node condition workflow, and the stored branch token. -/
theorem engine_edge_selection_witness :
    (execLoop selReg condPairWf 1 (mkNode "c" "condition" "C" []) selSt 0 =
      (match execLoop selReg condPairWf 0 (mkNode "t" "end" "T" []) selSt 1 with
       | .error er => .error er
       | .ok (s, rest) => .ok (s, okStep 1 (mkNode "c" "condition" "C" []) condNodeRes :: rest))) ∧
    getStr (conditionExec (mkNode "c" "condition" "C" []) condSt).1.vars "conditionResult"
      = (if evaluateCondition 30 "greater_than" 25 then "true" else "false") := by
  constructor
  · exact (engine_edge_selection selReg condPairWf).1 0
      (mkNode "c" "condition" "C" []) selSt 0 startExec selSt condNodeRes
      (mkEdge "e1" "c" "t" "true") (mkNode "t" "end" "T" [])
      rfl rfl rfl rfl (by decide) rfl
  · exact (engine_edge_selection condReg condPairWf).2.2.2
      (mkNode "c" "condition" "C" []) condSt (.vFloat64 30) 30 rfl rfl

/-- Claim C7: the integration handler scans the metadata option list for a
case-insensitive city match; absence of the city or non-numeric coordinates
of the matched entry are step-level errors; a match invokes the injected
temperature-lookup capability with the matched latitude/longitude, wraps a
capability failure, and on success stores the temperature in the
accumulator under the fixed key `temperature`. -/
theorem integrationExec_spec (client : ℚ → ℚ → Except String ℚ)
    (node : Node) (state : ExecutionState) :
    (findCoords (getStr state.formData "city") (getList node.data.metadata "options")
        = .ok none →
      integrationExec client node state = (state, .error
        ("city \"" ++ getStr state.formData "city" ++ "\" not found in available options"))) ∧
    (∀ e, findCoords (getStr state.formData "city") (getList node.data.metadata "options")
        = .error e →
      integrationExec client node state = (state, .error e)) ∧
    (∀ city m rest, eqFold (getStr m "city") city = true →
      (toFloat64 ((List.lookup "lat" m).getD .vNil) = none ∨
       toFloat64 ((List.lookup "lon" m).getD .vNil) = none) →
      findCoords city (.vMap m :: rest)
        = .error ("invalid coordinates for city \"" ++ city ++ "\"")) ∧
    (∀ city m rest la lo, eqFold (getStr m "city") city = true →
      toFloat64 ((List.lookup "lat" m).getD .vNil) = some la →
      toFloat64 ((List.lookup "lon" m).getD .vNil) = some lo →
      findCoords city (.vMap m :: rest) = .ok (some (la, lo))) ∧
    (∀ city m rest, eqFold (getStr m "city") city = false →
      findCoords city (.vMap m :: rest) = findCoords city rest) ∧
    (∀ city v rest, (∀ m, v ≠ .vMap m) →
      findCoords city (v :: rest) = findCoords city rest) ∧
    (∀ la lo e, findCoords (getStr state.formData "city")
        (getList node.data.metadata "options") = .ok (some (la, lo)) →
      client la lo = .error e →
      integrationExec client node state
        = (state, .error ("weather API error: " ++ e))) ∧
    (∀ la lo temp, findCoords (getStr state.formData "city")
        (getList node.data.metadata "options") = .ok (some (la, lo)) →
      client la lo = .ok temp →
      ∃ res, integrationExec client node state =
        ({ state with vars := setKey state.vars "temperature" (.vFloat64 temp) }, .ok res) ∧
        res.status = "completed" ∧
        List.lookup "temperature" res.output = some (.vFloat64 temp)) := by
  refine ⟨?_, ?_, ?_, ?_, ?_, ?_, ?_, ?_⟩
  · intro hfc
    simp only [integrationExec, hfc]
  · intro e hfc
    simp only [integrationExec, hfc]
  · intro city m rest hfold hbad
    cases hlat : toFloat64 ((List.lookup "lat" m).getD .vNil) with
    | none => simp only [findCoords, hfold, if_true, hlat]
    | some la =>
        rcases hbad with h | h
        · rw [hlat] at h; cases h
        · simp only [findCoords, hfold, if_true, hlat, h]
  · intro city m rest la lo hfold hlat hlon
    simp only [findCoords, hfold, if_true, hlat, hlon]
  · intro city m rest hfold
    simp only [findCoords, hfold, Bool.false_eq_true, if_false]
  · intro city v rest hnm
    cases v with
    | vMap m => exact absurd rfl (hnm m)
    | vString s => rfl
    | vFloat64 q => rfl
    | vFloat32 q => rfl
    | vInt n => rfl
    | vInt64 n => rfl
    | vBool b => rfl
    | vList xs => rfl
    | vNil => rfl
  · intro la lo e hfc hcl
    simp only [integrationExec, hfc, hcl]
  · intro la lo temp hfc hcl
    refine ⟨{ nodeId := node.id, nodeType := node.type, label := node.data.label
              status := "completed"
              output :=
                [("message", .vString ("Current temperature in "
                    ++ getStr state.formData "city" ++ ": " ++ fmtF1 temp ++ "°C")),
                 ("temperature", .vFloat64 temp),
                 ("location", .vString (getStr state.formData "city")),
                 ("apiResponse", .vMap
                   [("endpoint", .vString (getStr node.data.metadata "apiEndpoint")),
                    ("method", .vString "GET"),
                    ("statusCode", .vInt 200),
                    ("data", .vMap [("temperature", .vFloat64 temp)])])] },
      ?_, rfl, ?_⟩
    · simp only [integrationExec, hfc, hcl]
    · rfl

/-- Witness for C7: the Sydney option node under the standard inputs —
missing city, invalid coordinates, capability failure and success. -/
theorem integrationExec_spec_witness :
    (integrationExec (clientAt 21) sydneyNode parisSt = (parisSt, .error
      ("city \"" ++ getStr parisSt.formData "city" ++ "\" not found in available options"))) ∧
    (findCoords "Sydney" [.vMap badCoordOption]
      = .error ("invalid coordinates for city \"" ++ "Sydney" ++ "\"")) ∧
    (integrationExec clientFail sydneyNode aliceSt
      = (aliceSt, .error ("weather API error: " ++ "API timeout"))) ∧
    (∃ res, integrationExec (clientAt 21) sydneyNode aliceSt =
      ({ aliceSt with vars := setKey aliceSt.vars "temperature" (.vFloat64 21) }, .ok res) ∧
      res.status = "completed" ∧
      List.lookup "temperature" res.output = some (.vFloat64 21)) := by
  refine ⟨?_, ?_, ?_, ?_⟩
  · exact (integrationExec_spec (clientAt 21) sydneyNode parisSt).1 rfl
  · exact (integrationExec_spec (clientAt 21) sydneyNode parisSt).2.2.1
      "Sydney" badCoordOption [] rfl (Or.inl rfl)
  · exact (integrationExec_spec clientFail sydneyNode aliceSt).2.2.2.2.2.2.1
      1 2 "API timeout" rfl rfl
  · exact (integrationExec_spec (clientAt 21) sydneyNode aliceSt).2.2.2.2.2.2.2
      1 2 21 rfl rfl

/-- `%.1f` of the zero temperature default. -/
theorem fmtF1_zero : fmtF1 0 = "0.0" := by
  have h : roundHalfEven ((0 : ℚ) * 10) = 0 := by
    rw [roundHalfEven]
    norm_num
  simp only [fmtF1, h]
  rfl

/-- Claim C10: the email handler never fails — for every node and state it
returns a `completed` step and leaves the state unchanged; with missing
form fields and accumulator it substitutes empty strings and formats the
missing temperature as `0.0` in the metadata template. -/
theorem emailExec_never_fails (node : Node) (state : ExecutionState) :
    (∃ res, emailExec node state = (state, .ok res) ∧ res.status = "completed") ∧
    (state.formData = [] → state.vars = [] →
      ∃ res, emailExec node state = (state, .ok res) ∧ res.status = "completed" ∧
        List.lookup "emailContent" res.output = some (.vMap
          [("to", .vString ""),
           ("subject", .vString (goReplace
             [("\x7b\x7bname\x7d\x7d", ""), ("\x7b\x7bcity\x7d\x7d", ""),
              ("\x7b\x7btemperature\x7d\x7d", "0.0")]
             (getStr (getMap node.data.metadata "emailTemplate") "subject"))),
           ("body", .vString (goReplace
             [("\x7b\x7bname\x7d\x7d", ""), ("\x7b\x7bcity\x7d\x7d", ""),
              ("\x7b\x7btemperature\x7d\x7d", "0.0")]
             (getStr (getMap node.data.metadata "emailTemplate") "body")))])) := by
  constructor
  · exact ⟨_, rfl, rfl⟩
  · intro h1 h2
    refine ⟨{ nodeId := node.id, nodeType := node.type, label := node.data.label
              status := "completed"
              output :=
                [("message", .vString "Weather alert email drafted for "),
                 ("emailDraft", .vMap
                   [("to", .vString ""),
                    ("from", .vString "weather-alerts@example.com"),
                    ("subject", .vString (goReplace
                      [("\x7b\x7bname\x7d\x7d", ""), ("\x7b\x7bcity\x7d\x7d", ""),
                       ("\x7b\x7btemperature\x7d\x7d", "0.0")]
                      (getStr (getMap node.data.metadata "emailTemplate") "subject"))),
                    ("body", .vString (goReplace
                      [("\x7b\x7bname\x7d\x7d", ""), ("\x7b\x7bcity\x7d\x7d", ""),
                       ("\x7b\x7btemperature\x7d\x7d", "0.0")]
                      (getStr (getMap node.data.metadata "emailTemplate") "body")))]),
                 ("emailContent", .vMap
                   [("to", .vString ""),
                    ("subject", .vString (goReplace
                      [("\x7b\x7bname\x7d\x7d", ""), ("\x7b\x7bcity\x7d\x7d", ""),
                       ("\x7b\x7btemperature\x7d\x7d", "0.0")]
                      (getStr (getMap node.data.metadata "emailTemplate") "subject"))),
                    ("body", .vString (goReplace
                      [("\x7b\x7bname\x7d\x7d", ""), ("\x7b\x7bcity\x7d\x7d", ""),
                       ("\x7b\x7btemperature\x7d\x7d", "0.0")]
                      (getStr (getMap node.data.metadata "emailTemplate") "body")))]),
                 ("emailSent", .vBool true)] },
      ?_, rfl, ?_⟩
    · simp only [emailExec, h1, h2, getStr, getF64, List.lookup, fmtF1_zero]
      rfl
    · rfl

/-- Witness for C10 on an email node with no metadata and the empty state. -/
theorem emailExec_never_fails_witness :
    ∃ res, emailExec (mkNode "e" "email" "E" []) emptySt = (emptySt, .ok res) ∧
      res.status = "completed" ∧
      List.lookup "emailContent" res.output = some (.vMap
        [("to", .vString ""),
         ("subject", .vString (goReplace
           [("\x7b\x7bname\x7d\x7d", ""), ("\x7b\x7bcity\x7d\x7d", ""),
            ("\x7b\x7btemperature\x7d\x7d", "0.0")]
           (getStr (getMap (mkNode "e" "email" "E" []).data.metadata "emailTemplate") "subject"))),
         ("body", .vString (goReplace
           [("\x7b\x7bname\x7d\x7d", ""), ("\x7b\x7bcity\x7d\x7d", ""),
            ("\x7b\x7btemperature\x7d\x7d", "0.0")]
           (getStr (getMap (mkNode "e" "email" "E" []).data.metadata "emailTemplate") "body")))]) :=
  (emailExec_never_fails (mkNode "e" "email" "E" []) emptySt).2 rfl rfl

end WorkflowEngine
